import Mathlib

/-!
# Verification of the smart-home-network canvas animation core

Shallow embedding of the animation subsystem of `src/App.js`:
the packet engine (`createPacket`, `updatePackets`), the five topology
layout generators (`drawStarTopology`, `drawMeshTopology`,
`drawBusTopology`, `drawTreeTopology`, `drawHybridTopology`), and the
spawn/resize logic of the frame loop (`animate`, `resizeCanvas`).

Modelling conventions:
* JavaScript floating-point numbers are modelled by `ℚ`.
* `Math.sqrt` is an abstract parameter `sqrtf : ℚ → ℚ`; every definition
  that needs a Euclidean length takes it as an argument, and both the
  source-side and the spec-side definitions use the same parameter.
* `Math.cos`/`Math.sin` are abstract parameters `cosf sinf : ℚ → ℚ`.
  The source computes `cos((i / n) * 2π)`; since `π` is irrational the
  angle is passed as the fraction of a full turn `i / n`, so `cosf t`
  stands for `cos(2π t)`.
* `Math.random()` is an explicit stream `rand : ℕ → ℚ` consumed left to
  right; the unbounded rejection-sampling `do … while` loops of the
  mesh placement are modelled with a fuel bound and return `Option`.
* Mutation of the packet array in place (`Array.prototype.filter` with a
  mutating callback) is modelled functionally with `List.filterMap`.
-/

/-- A 2-D point; the source's node objects `{x, y, label}` with the
purely decorative label dropped. -/
structure Point where
  x : ℚ
  y : ℚ
deriving DecidableEq, Repr

/-- A packet, exactly the object literal built by `createPacket`. -/
structure Packet where
  x : ℚ
  y : ℚ
  path : List Point
  currentSegment : ℕ
  distanceTraveled : ℚ
deriving DecidableEq, Repr

/-- `const packetSpeed = 1.5` (pixels per 16 ms reference frame). -/
def packetSpeed : ℚ := 3 / 2

/-- `const packetInterval = 1000` (milliseconds between new packets). -/
def packetInterval : ℚ := 1000

/-- `createPacket(path)`: `null` when `path.length < 2`, otherwise a fresh
packet positioned at the first point of the path. -/
def createPacket (path : List Point) : Option Packet :=
  if path.length < 2 then none
  else some
    { x := (path.getD 0 ⟨0, 0⟩).x
      y := (path.getD 0 ⟨0, 0⟩).y
      path := path
      currentSegment := 0
      distanceTraveled := 0 }

/-- Start point of a packet's current segment, `packet.path[packet.currentSegment]`. -/
def segStart (p : Packet) : Point := p.path.getD p.currentSegment ⟨0, 0⟩

/-- End point of a packet's current segment, `packet.path[packet.currentSegment + 1]`. -/
def segEnd (p : Packet) : Point := p.path.getD (p.currentSegment + 1) ⟨0, 0⟩

/-- `segmentLength = Math.sqrt((end.x - start.x)² + (end.y - start.y)²)`. -/
def segmentLength (sqrtf : ℚ → ℚ) (p : Packet) : ℚ :=
  sqrtf (((segEnd p).x - (segStart p).x) ^ 2 + ((segEnd p).y - (segStart p).y) ^ 2)

/-- `packet.distanceTraveled + packetSpeed * (deltaTime / 16)`: the travelled
distance after this frame's increment. -/
def newDistance (deltaTime : ℚ) (p : Packet) : ℚ :=
  p.distanceTraveled + packetSpeed * (deltaTime / 16)

/-- The body of the `packets.filter` callback in `updatePackets`:
`none` means the packet is dropped, `some` is the packet after this
frame's mutation.  Translated clause by clause from `src/App.js`
lines 183–212. -/
def updatePacketOne (sqrtf : ℚ → ℚ) (deltaTime : ℚ) (p : Packet) : Option Packet :=
  if p.path.length - 1 ≤ p.currentSegment then
    none
  else
    let d := newDistance deltaTime p
    if segmentLength sqrtf p ≤ d then
      if p.path.length - 1 ≤ p.currentSegment + 1 then
        none
      else
        some { x := (p.path.getD (p.currentSegment + 1) ⟨0, 0⟩).x
               y := (p.path.getD (p.currentSegment + 1) ⟨0, 0⟩).y
               path := p.path
               currentSegment := p.currentSegment + 1
               distanceTraveled := 0 }
    else
      some { x := (segStart p).x + ((segEnd p).x - (segStart p).x) * (d / segmentLength sqrtf p)
             y := (segStart p).y + ((segEnd p).y - (segStart p).y) * (d / segmentLength sqrtf p)
             path := p.path
             currentSegment := p.currentSegment
             distanceTraveled := d }

/-- `updatePackets(deltaTime)` over an explicit packet list. -/
def updatePackets (sqrtf : ℚ → ℚ) (deltaTime : ℚ) (packets : List Packet) : List Packet :=
  packets.filterMap (updatePacketOne sqrtf deltaTime)

/-- Modelled from the spec, §4.3 "Advancement algorithm per packet per
frame" (steps 1–5 plus the pre-step drop rule), for comparison with the
source-side `updatePacketOne`.  The drop conditions here are stated with
equalities ("segmentIndex equals the last path index", "segmentIndex now
indexes the last point") exactly as the spec words them. -/
def advanceSpecOne (sqrtf : ℚ → ℚ) (elapsedMs : ℚ) (p : Packet) : Option Packet :=
  if p.currentSegment = p.path.length - 1 then
    none
  else
    let d := p.distanceTraveled + packetSpeed * (elapsedMs / 16)
    if segmentLength sqrtf p ≤ d then
      if p.currentSegment + 1 = p.path.length - 1 then
        none
      else
        some { x := (p.path.getD (p.currentSegment + 1) ⟨0, 0⟩).x
               y := (p.path.getD (p.currentSegment + 1) ⟨0, 0⟩).y
               path := p.path
               currentSegment := p.currentSegment + 1
               distanceTraveled := 0 }
    else
      some { x := (segStart p).x + ((segEnd p).x - (segStart p).x) * (d / segmentLength sqrtf p)
             y := (segStart p).y + ((segEnd p).y - (segStart p).y) * (d / segmentLength sqrtf p)
             path := p.path
             currentSegment := p.currentSegment
             distanceTraveled := d }

/-- Spec-side advancement of a whole packet collection (`advance`). -/
def advanceSpec (sqrtf : ℚ → ℚ) (elapsedMs : ℚ) (packets : List Packet) : List Packet :=
  packets.filterMap (advanceSpecOne sqrtf elapsedMs)

/-- Well-formedness of a packet: its segment index is an index into its
path.  Holds for every packet `createPacket` produces and is preserved
by advancement. -/
def Packet.Wf (p : Packet) : Prop := p.currentSegment < p.path.length

instance (p : Packet) : Decidable p.Wf := by
  unfold Packet.Wf; infer_instance

/-- Squared Euclidean distance between two points (the argument of
`Math.sqrt` in the collision checks). -/
def sqDist (a b : Point) : ℚ := (a.x - b.x) ^ 2 + (a.y - b.y) ^ 2

/-- The star hub, drawn at the canvas centre. -/
def starHub (width height : ℚ) : Point := ⟨width / 2, height / 2⟩

/-- The 5 star devices: device `i` sits at angle `i/5` of a turn on the
circle of radius `spreadRadius = 0.35 * min(width, height)` around the
centre. -/
def starDevices (cosf sinf : ℚ → ℚ) (width height : ℚ) : List Point :=
  (List.range 5).map fun i =>
    ⟨width / 2 + min width height * (35 / 100) * cosf ((i : ℚ) / 5),
     height / 2 + min width height * (35 / 100) * sinf ((i : ℚ) / 5)⟩

/-- `drawStarTopology`: hub at the canvas centre, 5 devices evenly spread
on a circle of radius `0.35 * min(width, height)`, and a pair of directed
paths hub↔device per device.  Returns the drawn nodes together with the
paths the source returns. -/
def drawStarTopology (cosf sinf : ℚ → ℚ) (width height : ℚ) :
    List Point × List (List Point) :=
  let hub := starHub width height
  let devices := starDevices cosf sinf width height
  let paths := devices.flatMap fun device => [[hub, device], [device, hub]]
  (hub :: devices, paths)

/-- One round of the `do … while (collision)` rejection-sampling loop:
draw a candidate from the random stream at position `k`, accept it when
no already-placed device is at distance `< r * 4`, retry otherwise.
`fuel` bounds the number of retries (the source loop is unbounded).
Returns the accepted point and the next unread stream position. -/
def placeOne (sqrtf : ℚ → ℚ) (genx geny : ℚ → ℚ) (r : ℚ) (rand : ℕ → ℚ)
    (existing : List Point) : ℕ → ℕ → Option (Point × ℕ)
  | 0, _ => none
  | fuel + 1, k =>
    let x := genx (rand k)
    let y := geny (rand (k + 1))
    if existing.any fun d => sqrtf (((x : ℚ) - d.x) ^ 2 + (y - d.y) ^ 2) < r * 4 then
      placeOne sqrtf genx geny r rand existing fuel (k + 2)
    else
      some (⟨x, y⟩, k + 2)

/-- Placement of `n` devices in order, each by rejection sampling against
those already placed (`devices.push` accumulates at the tail). -/
def placeAll (sqrtf : ℚ → ℚ) (genx geny : ℚ → ℚ) (r : ℚ) (rand : ℕ → ℚ)
    (fuel : ℕ) : ℕ → List Point → ℕ → Option (List Point × ℕ)
  | 0, acc, k => some (acc, k)
  | n + 1, acc, k =>
    match placeOne sqrtf genx geny r rand acc fuel k with
    | none => none
    | some (p, k') => placeAll sqrtf genx geny r rand fuel n (acc ++ [p]) k'

/-- The doubly nested `for i / for j > i` loop pushing `[dᵢ, dⱼ]` and
`[dⱼ, dᵢ]` for every unordered pair of devices. -/
def allPairsPaths : List Point → List (List Point)
  | [] => []
  | d :: rest => (rest.flatMap fun e => [[d, e], [e, d]]) ++ allPairsPaths rest

/-- The 5 rejection-sampled mesh devices: uniformly random positions in
the rectangle padded by `padding = r * 2` on each side, retried until
no pair is at distance `< r * 4`. -/
def meshDevices (sqrtf : ℚ → ℚ) (rand : ℕ → ℚ) (fuel : ℕ)
    (width height r : ℚ) : Option (List Point) :=
  let padding := r * 2
  match placeAll sqrtf
      (fun u => padding + u * (width - 2 * padding))
      (fun u => padding + u * (height - 2 * padding)) r rand fuel 5 [] 0 with
  | none => none
  | some (devices, _) => some devices

/-- `drawMeshTopology`: 5 devices at uniformly random positions inside a
rectangle padded by `2 * r`, rejection-sampled to keep pairwise distance
`≥ r * 4`, fully connected with directed paths both ways.  `none` when
the fuel bound is hit. -/
def drawMeshTopology (sqrtf : ℚ → ℚ) (rand : ℕ → ℚ) (fuel : ℕ)
    (width height r : ℚ) : Option (List Point × List (List Point)) :=
  match meshDevices sqrtf rand fuel width height r with
  | none => none
  | some devices => some (devices, allPairsPaths devices)

/-- The `for i in 0 .. busNodes.length - 2` loop of `drawBusTopology`:
directed paths between adjacent bus attachment points, both ways. -/
def adjacentPaths : List Point → List (List Point)
  | a :: b :: rest => [a, b] :: [b, a] :: adjacentPaths (b :: rest)
  | _ => []

/-- The 5 drawn bus devices: evenly spaced along the horizontal span
from 10% to 90% of the width (`deviceSpacing = busLength / (5 - 1)`),
sitting `r * 2` below the bus line at mid-height. -/
def busDevices (width height r : ℚ) : List Point :=
  let busY := height / 2
  let startX := width * (1 / 10)
  let endX := width * (9 / 10)
  let busLength := endX - startX
  let deviceSpacing := busLength / 4
  (List.range 5).map fun i =>
    (⟨startX + (i : ℚ) * deviceSpacing, busY + r * 2⟩ : Point)

/-- The bus attachment points: each drawn device projected up onto the
bus line at `y = height / 2`. -/
def busNodes (width height r : ℚ) : List Point :=
  (busDevices width height r).map fun d => (⟨d.x, height / 2⟩ : Point)

/-- `drawBusTopology`: the drawn nodes sit `r * 2` below the bus line,
while the packet paths run along the bus line itself between adjacent
attachment points, both ways. -/
def drawBusTopology (width height r : ℚ) : List Point × List (List Point) :=
  (busDevices width height r, adjacentPaths (busNodes width height r))

/-- `drawTreeTopology`: fixed 3-level hierarchy (root, two sub-hubs, four
leaf devices) at fixed fractional coordinates, with a pair of directed
paths per parent–child connection, in source push order. -/
def drawTreeTopology (width height : ℚ) : List Point × List (List Point) :=
  let root : Point := ⟨width / 2, height * (15 / 100)⟩
  let level1Y := height * (45 / 100)
  let level1A : Point := ⟨width * (25 / 100), level1Y⟩
  let level1B : Point := ⟨width * (75 / 100), level1Y⟩
  let level2Y := height * (75 / 100)
  let d1 : Point := ⟨width * (15 / 100), level2Y⟩
  let d2 : Point := ⟨width * (35 / 100), level2Y⟩
  let d3 : Point := ⟨width * (65 / 100), level2Y⟩
  let d4 : Point := ⟨width * (85 / 100), level2Y⟩
  ([root, level1A, level1B, d1, d2, d3, d4],
   [[root, level1A], [level1A, root],
    [root, level1B], [level1B, root],
    [level1A, d1], [d1, level1A],
    [level1A, d2], [d2, level1A],
    [level1B, d3], [d3, level1B],
    [level1B, d4], [d4, level1B]])

/-- The randomized mesh cluster of `drawHybridTopology` (right side):
3 devices rejection-sampled inside the rectangle
`[0.6w, 0.9w] × [0.1h, 0.9h]` with the same `< r * 4` collision rule as
the mesh layout. -/
def hybridMeshDevices (sqrtf : ℚ → ℚ) (rand : ℕ → ℚ) (fuel : ℕ)
    (width height r : ℚ) : Option (List Point) :=
  match placeAll sqrtf
      (fun u => width * (6 / 10) + u * (width * (3 / 10)))
      (fun u => height * (1 / 10) + u * (height * (8 / 10))) r rand fuel 3 [] 0 with
  | none => none
  | some (devices, _) => some devices

/-- The hybrid star hub, drawn at a quarter of the width, mid-height. -/
def hybridStarHub (width height : ℚ) : Point := ⟨width * (25 / 100), height / 2⟩

/-- The 3 hybrid star devices: device `i` at angle `i/3` of a turn on
the circle of radius `starSpread = 0.1 * width` around the star hub. -/
def hybridStarDevices (cosf sinf : ℚ → ℚ) (width height : ℚ) : List Point :=
  (List.range 3).map fun i =>
    ⟨(hybridStarHub width height).x + width * (1 / 10) * cosf ((i : ℚ) / 3),
     (hybridStarHub width height).y + width * (1 / 10) * sinf ((i : ℚ) / 3)⟩

/-- `drawHybridTopology`: a 3-device star cluster around a hub on the
left, the randomized 3-device mesh cluster on the right, and one
bridging pair of directed paths from the star hub to the first mesh
device. -/
def drawHybridTopology (cosf sinf sqrtf : ℚ → ℚ) (rand : ℕ → ℚ) (fuel : ℕ)
    (width height r : ℚ) : Option (List Point × List (List Point)) :=
  let starHub := hybridStarHub width height
  let starDevices := hybridStarDevices cosf sinf width height
  let starPaths := starDevices.flatMap fun device => [[starHub, device], [device, starHub]]
  match hybridMeshDevices sqrtf rand fuel width height r with
  | none => none
  | some meshDevs =>
    let bridgePaths :=
      if starDevices ≠ [] ∧ meshDevs ≠ [] then
        [[starHub, meshDevs.getD 0 ⟨0, 0⟩], [meshDevs.getD 0 ⟨0, 0⟩, starHub]]
      else []
    (some (starHub :: starDevices ++ meshDevs,
           starPaths ++ allPairsPaths meshDevs ++ bridgePaths))

/-- The animation state mutated by the frame loop: the packet array,
the value the next `packets.lastSpawnTime || 0` read yields, and
`lastTime` of the previous frame.  The stamp is an expando property on
the packets *array* in the source, so it is `0` whenever the array has
been re-created — which `updatePackets` does on every frame
(`packets = packets.filter(...)`, line 183). -/
structure AnimState where
  packets : List Packet
  lastSpawnTime : ℚ
  lastTime : ℚ
deriving DecidableEq, Repr

/-- The "Add new packets periodically" block of `animate` (lines
477–486): when more than `packetInterval` ms have passed since the last
spawn and the frame's path set is non-empty, the path at the random
index `idx` is given to `createPacket`; on success the packet is pushed
and the spawn stamp updated. -/
def spawnPhase (t : ℚ) (paths : List (List Point)) (idx : ℕ)
    (packets : List Packet) (lastSpawnTime : ℚ) : List Packet × ℚ :=
  if packetInterval < t - lastSpawnTime ∧ paths ≠ [] then
    match createPacket (paths.getD idx []) with
    | some newPacket => (packets ++ [newPacket], t)
    | none => (packets, lastSpawnTime)
  else
    (packets, lastSpawnTime)

/-- One step of `animate(currentTime)`: compute `deltaTime`, (drawing
elided) run the spawn block, then `updatePackets(deltaTime)`.  The
frame's freshly generated path set and the random path index are
inputs.  The stamp the spawn block writes onto the packets array
(`packets.lastSpawnTime = currentTime`, line 483) is discarded when
`updatePackets` replaces the array with `packets.filter(...)`
(line 183), so the state the next frame starts from carries stamp `0`:
the `packetInterval` throttle never survives a frame. -/
def animate (sqrtf : ℚ → ℚ) (paths : List (List Point)) (idx : ℕ)
    (currentTime : ℚ) (st : AnimState) : AnimState :=
  let deltaTime := currentTime - st.lastTime
  let spawned := spawnPhase currentTime paths idx st.packets st.lastSpawnTime
  { packets := updatePackets sqrtf deltaTime spawned.1
    lastSpawnTime := 0
    lastTime := currentTime }

/-- `resizeCanvas` at clock value `now = performance.now()`: the pending
frame is cancelled, `lastTime` is reset, the packet array is replaced by
a fresh empty one (which also resets the `lastSpawnTime` stamp to `0`),
and `animate(lastTime)` is called synchronously to restart the loop. -/
def resizeCanvas (sqrtf : ℚ → ℚ) (paths : List (List Point)) (idx : ℕ)
    (now : ℚ) (_prior : AnimState) : AnimState :=
  animate sqrtf paths idx now { packets := [], lastSpawnTime := 0, lastTime := now }

/-- Spawn events over a simulated run: each frame is a triple of its
clock value, its path set and its random path index; the count adds `1`
exactly when that frame's `spawnPhase` pushes a packet.  The stamp a
frame writes is stored on the packets array and lost when
`updatePackets` replaces the array before the frame ends, so every
subsequent frame reads `packets.lastSpawnTime || 0` as `0` — only the
initial stamp (also `0` for a loop started by `resizeCanvas`, whose
fresh empty array has no stamp) is a parameter. -/
def spawnEvents : List (ℚ × List (List Point) × ℕ) → ℚ → ℕ
  | [], _ => 0
  | (t, paths, idx) :: rest, lastSpawnTime =>
    (spawnPhase t paths idx [] lastSpawnTime).1.length + spawnEvents rest 0

/-! ## Helper lemmas -/

/-- A packet surviving one advancement step keeps its path and its
segment index stays put or increases by exactly one. -/
theorem updatePacketOne_some {sqrtf : ℚ → ℚ} {deltaTime : ℚ} {p q : Packet}
    (h : updatePacketOne sqrtf deltaTime p = some q) :
    q.path = p.path ∧
      (q.currentSegment = p.currentSegment ∨ q.currentSegment = p.currentSegment + 1) := by
  unfold updatePacketOne at h
  dsimp only at h
  split_ifs at h with h1 h2 h3
  · cases h
    exact ⟨rfl, Or.inr rfl⟩
  · cases h
    exact ⟨rfl, Or.inl rfl⟩

/-- Pointwise agreement of the spec-side and source-side per-packet
advancement on well-formed packets. -/
theorem advanceSpecOne_eq_updatePacketOne (sqrtf : ℚ → ℚ) (elapsedMs : ℚ)
    (p : Packet) (hp : p.Wf) :
    advanceSpecOne sqrtf elapsedMs p = updatePacketOne sqrtf elapsedMs p := by
  have hlen : p.currentSegment < p.path.length := hp
  unfold advanceSpecOne updatePacketOne newDistance
  dsimp only
  split_ifs <;> first | rfl | omega

/-- Every path the all-pairs mesh wiring produces is a two-point path
whose endpoints are devices of the wired list. -/
theorem allPairsPaths_endpoints (l : List Point) :
    ∀ p ∈ allPairsPaths l,
      p.length = 2 ∧ p.getD 0 ⟨0, 0⟩ ∈ l ∧ p.getD 1 ⟨0, 0⟩ ∈ l := by
  induction l with
  | nil => intro p hp; cases hp
  | cons d rest ih =>
    intro p hp
    unfold allPairsPaths at hp
    rcases List.mem_append.mp hp with hfl | htl
    · obtain ⟨e, he, hpe⟩ := List.mem_flatMap.mp hfl
      simp only [List.mem_cons, List.not_mem_nil, or_false] at hpe
      rcases hpe with h | h
      · subst h; exact ⟨rfl, List.mem_cons_self d rest, List.mem_cons_of_mem d he⟩
      · subst h; exact ⟨rfl, List.mem_cons_of_mem d he, List.mem_cons_self d rest⟩
    · obtain ⟨h2, ha, hb⟩ := ih p htl
      exact ⟨h2, List.mem_cons_of_mem d ha, List.mem_cons_of_mem d hb⟩

/-- Every path the bus wiring produces is a two-point path whose
endpoints are adjacent members of the bus-node list. -/
theorem adjacentPaths_endpoints : ∀ (l : List Point), ∀ p ∈ adjacentPaths l,
      p.length = 2 ∧ p.getD 0 ⟨0, 0⟩ ∈ l ∧ p.getD 1 ⟨0, 0⟩ ∈ l
  | [], p, hp => by simp [adjacentPaths] at hp
  | [a], p, hp => by simp [adjacentPaths] at hp
  | a :: b :: rest, p, hp => by
    rcases List.mem_cons.mp hp with h | hp'
    · subst h
      exact ⟨rfl, List.mem_cons_self _ _,
        List.mem_cons_of_mem _ (List.mem_cons_self _ _)⟩
    rcases List.mem_cons.mp hp' with h | hp2
    · subst h
      exact ⟨rfl, List.mem_cons_of_mem _ (List.mem_cons_self _ _),
        List.mem_cons_self _ _⟩
    · obtain ⟨h2, ha, hb⟩ := adjacentPaths_endpoints (b :: rest) p hp2
      exact ⟨h2, List.mem_cons_of_mem _ ha, List.mem_cons_of_mem _ hb⟩

/-- A point accepted by the rejection-sampling round is at distance
`≥ r * 4` (as measured by `sqrtf`) from every already-placed device. -/
theorem placeOne_some_far {sqrtf genx geny : ℚ → ℚ} {r : ℚ} {rand : ℕ → ℚ}
    {existing : List Point} :
    ∀ {fuel k : ℕ} {pt : Point} {k' : ℕ},
      placeOne sqrtf genx geny r rand existing fuel k = some (pt, k') →
      ∀ e ∈ existing, r * 4 ≤ sqrtf ((pt.x - e.x) ^ 2 + (pt.y - e.y) ^ 2) := by
  intro fuel
  induction fuel with
  | zero => intro k pt k' h; cases h
  | succ n ih =>
    intro k pt k' h e he
    unfold placeOne at h
    dsimp only at h
    split_ifs at h with hcol
    · exact ih h e he
    · cases h
      by_contra hle
      exact hcol (List.any_eq_true.mpr
        ⟨e, he, by simpa using lt_of_not_le hle⟩)

/-- The placement loop only ever appends devices separated from all the
earlier ones: pairwise separation is an invariant of `placeAll`. -/
theorem placeAll_some_pairwise {sqrtf genx geny : ℚ → ℚ} {r : ℚ} {rand : ℕ → ℚ}
    {fuel : ℕ} :
    ∀ {n : ℕ} {acc : List Point} {k : ℕ} {devices : List Point} {k' : ℕ},
      placeAll sqrtf genx geny r rand fuel n acc k = some (devices, k') →
      acc.Pairwise (fun a b => r * 4 ≤ sqrtf ((b.x - a.x) ^ 2 + (b.y - a.y) ^ 2)) →
      devices.Pairwise (fun a b => r * 4 ≤ sqrtf ((b.x - a.x) ^ 2 + (b.y - a.y) ^ 2)) := by
  intro n
  induction n with
  | zero =>
    intro acc k devices k' h hacc
    unfold placeAll at h
    cases h
    exact hacc
  | succ m ih =>
    intro acc k devices k' h hacc
    unfold placeAll at h
    cases hpl : placeOne sqrtf genx geny r rand acc fuel k with
    | none => rw [hpl] at h; cases h
    | some res =>
      rw [hpl] at h
      refine ih h (List.pairwise_append.mpr ⟨hacc, List.pairwise_singleton _ _, ?_⟩)
      intro a ha b hb
      rw [List.mem_singleton.mp hb]
      exact placeOne_some_far hpl a ha

/-- `sqDist` is symmetric in its two arguments. -/
theorem sqDist_comm (a b : Point) : sqDist a b = sqDist b a := by
  unfold sqDist; ring

/-! ## Claim theorems -/

/-- C1: for every well-formed packet advanced in a frame with elapsed
time `elapsedMs`, the source's update (travelled distance increased by
`speed * (elapsedMs / 16)`; on reaching the segment length: segment
index incremented, distance reset to `0` discarding overshoot, removal
when the new index is the last path index, otherwise a snap to the new
segment's start; otherwise linear interpolation along the segment; and
packets already at the last path index dropped before being advanced)
coincides with the spec's advancement algorithm. -/
theorem packet_advancement_matches_spec (sqrtf : ℚ → ℚ) (elapsedMs : ℚ)
    (packets : List Packet) (hwf : ∀ p ∈ packets, p.Wf) :
    advanceSpec sqrtf elapsedMs packets = updatePackets sqrtf elapsedMs packets := by
  unfold advanceSpec updatePackets
  exact List.filterMap_congr fun p hp =>
    advanceSpecOne_eq_updatePacketOne sqrtf elapsedMs p (hwf p hp)

/-- Witness for C1 at a concrete frame: one packet on a two-point path,
advanced by a 16 ms frame. -/
theorem packet_advancement_matches_spec_witness :
    advanceSpec (fun q => q) 16 [⟨0, 0, [⟨0, 0⟩, ⟨16, 0⟩], 0, 0⟩] =
      updatePackets (fun q => q) 16 [⟨0, 0, [⟨0, 0⟩, ⟨16, 0⟩], 0, 0⟩] :=
  packet_advancement_matches_spec (fun q => q) 16 _ (by decide)

/-- C9: the interpolation branch of the per-packet update is reached
only under `distanceTraveled < segmentLength` (after this frame's
increment), which forces `segmentLength > 0`, so the division
`distanceTraveled / segmentLength` never divides by zero. -/
theorem interpolation_branch_segment_length_pos (sqrtf : ℚ → ℚ) (deltaTime : ℚ)
    (p : Packet) (h0 : 0 ≤ p.distanceTraveled) (h1 : 0 ≤ deltaTime)
    (h2 : newDistance deltaTime p < segmentLength sqrtf p) :
    0 < segmentLength sqrtf p := by
  have h16 : 0 ≤ deltaTime / 16 := by positivity
  have hd : 0 ≤ newDistance deltaTime p := by
    unfold newDistance packetSpeed
    nlinarith
  exact lt_of_le_of_lt hd h2

/-- Witness for C9: a fresh packet on a 16-pixel segment with a 16 ms
frame. -/
theorem interpolation_branch_segment_length_pos_witness :
    0 < segmentLength (fun q => q) ⟨0, 0, [⟨0, 0⟩, ⟨16, 0⟩], 0, 0⟩ :=
  interpolation_branch_segment_length_pos (fun q => q) 16 _
    (by norm_num) (by norm_num)
    (by norm_num [newDistance, segmentLength, segStart, segEnd, packetSpeed])

/-- C10: packet advancement never creates packets: the output collection
lines up (via `Forall₂`) with a sublist of the input — packets are only
removed, never added or reordered — and each survivor keeps its path
while its segment index stays put or increases by exactly one. -/
theorem update_only_removes_and_advances (sqrtf : ℚ → ℚ) (deltaTime : ℚ)
    (packets : List Packet) :
    ∃ kept : List Packet, kept.Sublist packets ∧
      List.Forall₂ (fun p q => q.path = p.path ∧
          (q.currentSegment = p.currentSegment ∨ q.currentSegment = p.currentSegment + 1))
        kept (updatePackets sqrtf deltaTime packets) := by
  induction packets with
  | nil => exact ⟨[], List.Sublist.refl [], by simp [updatePackets]⟩
  | cons p ps ih =>
    obtain ⟨kept, hsub, hrel⟩ := ih
    unfold updatePackets at hrel ⊢
    cases hup : updatePacketOne sqrtf deltaTime p with
    | none =>
      refine ⟨kept, hsub.cons p, ?_⟩
      simp only [List.filterMap_cons, hup]
      exact hrel
    | some q =>
      refine ⟨p :: kept, hsub.cons₂ p, ?_⟩
      simp only [List.filterMap_cons, hup]
      exact List.Forall₂.cons (updatePacketOne_some hup) hrel

/-- C4: the star layout has exactly 6 nodes — the hub at the canvas
centre followed by 5 devices at evenly spaced angles (`i/5` of a turn)
on the circle of radius `0.35 * min(width, height)` around it — and
exactly 10 directed paths, one hub→device and one device→hub per
device. -/
theorem star_layout_nodes_and_paths (cosf sinf : ℚ → ℚ) (width height : ℚ) :
    (drawStarTopology cosf sinf width height).1.length = 6 ∧
    (drawStarTopology cosf sinf width height).2.length = 10 ∧
    (drawStarTopology cosf sinf width height).1 =
      starHub width height :: starDevices cosf sinf width height ∧
    starHub width height = ⟨width / 2, height / 2⟩ ∧
    (∀ i : ℕ, i < 5 →
      (starDevices cosf sinf width height).getD i ⟨0, 0⟩ =
        ⟨width / 2 + min width height * (35 / 100) * cosf ((i : ℚ) / 5),
         height / 2 + min width height * (35 / 100) * sinf ((i : ℚ) / 5)⟩) ∧
    (∀ d ∈ starDevices cosf sinf width height,
      [starHub width height, d] ∈ (drawStarTopology cosf sinf width height).2 ∧
      [d, starHub width height] ∈ (drawStarTopology cosf sinf width height).2) := by
  refine ⟨rfl, rfl, rfl, rfl, ?_, ?_⟩
  · intro i hi
    interval_cases i <;> rfl
  · intro d hd
    constructor
    · exact List.mem_flatMap.mpr ⟨d, hd, by simp⟩
    · exact List.mem_flatMap.mpr ⟨d, hd, by simp⟩

/-- Witness for C4: the first device of the 400×300 star layout, with
the trig functions instantiated to the constant-zero function. -/
theorem star_layout_nodes_and_paths_witness :
    (starDevices (fun _ => 0) (fun _ => 0) 400 300).getD 0 ⟨0, 0⟩ =
      ⟨400 / 2 + min (400 : ℚ) 300 * (35 / 100) * 0,
       300 / 2 + min (400 : ℚ) 300 * (35 / 100) * 0⟩ :=
  (star_layout_nodes_and_paths (fun _ => 0) (fun _ => 0) 400 300).2.2.2.2.1 0 (by norm_num)

/-- C5 (amended): for every canvas size the bus layout has exactly 5
nodes and 8 directed paths, and the tree layout has exactly 7 nodes and
exactly 12 directed paths (6 parent–child edges × 2 directions; the
tree's 7 nodes span only 6 edges, not 7). -/
theorem bus_tree_node_path_counts (width height r : ℚ) :
    (drawBusTopology width height r).1.length = 5 ∧
    (drawBusTopology width height r).2.length = 8 ∧
    (drawTreeTopology width height).1.length = 7 ∧
    (drawTreeTopology width height).2.length = 12 :=
  ⟨rfl, rfl, rfl, rfl⟩

/-- Counterexample to C5 as stated: on a 400×300 canvas the tree layout
emits 12 directed paths, not 14. -/
theorem tree_path_count_not_fourteen :
    (drawTreeTopology 400 300).2.length = 12 ∧
      (drawTreeTopology 400 300).2.length ≠ 14 :=
  ⟨rfl, by decide⟩

/-- Every hub-and-spoke path (star wiring) is a two-point path whose
endpoints lie in the hub-plus-devices node list. -/
theorem spokePaths_endpoints (hub : Point) (l : List Point) :
    ∀ p ∈ l.flatMap (fun device => [[hub, device], [device, hub]]),
      p.length = 2 ∧ p.getD 0 ⟨0, 0⟩ ∈ hub :: l ∧ p.getD 1 ⟨0, 0⟩ ∈ hub :: l := by
  intro p hp
  obtain ⟨d, hd, hpd⟩ := List.mem_flatMap.mp hp
  simp only [List.mem_cons, List.not_mem_nil, or_false] at hpd
  rcases hpd with h | h
  · subst h; exact ⟨rfl, List.mem_cons_self _ _, List.mem_cons_of_mem _ hd⟩
  · subst h; exact ⟨rfl, List.mem_cons_of_mem _ hd, List.mem_cons_self _ _⟩

/-- The first element of a non-empty list is a member. -/
theorem getD_zero_mem {l : List Point} (h : l ≠ []) : l.getD 0 ⟨0, 0⟩ ∈ l := by
  cases l with
  | nil => exact absurd rfl h
  | cons a t => exact List.mem_cons_self _ _

/-- Membership in `h :: l` lifts to `h :: (l ++ m)`. -/
theorem mem_cons_append_left {a h : Point} {l m : List Point} (ha : a ∈ h :: l) :
    a ∈ h :: (l ++ m) := by
  rcases List.mem_cons.mp ha with h1 | h1
  · exact h1 ▸ List.mem_cons_self _ _
  · exact List.mem_cons_of_mem _ (List.mem_append_left m h1)

/-- Unfolding a successful mesh layout into its device list and paths. -/
theorem drawMeshTopology_some {sqrtf : ℚ → ℚ} {rand : ℕ → ℚ} {fuel : ℕ}
    {width height r : ℚ} {mns : List Point} {mps : List (List Point)}
    (h : drawMeshTopology sqrtf rand fuel width height r = some (mns, mps)) :
    meshDevices sqrtf rand fuel width height r = some mns ∧
      mps = allPairsPaths mns := by
  unfold drawMeshTopology at h
  cases hmd : meshDevices sqrtf rand fuel width height r with
  | none => rw [hmd] at h; cases h
  | some ds =>
    rw [hmd] at h
    simp only [Option.some.injEq, Prod.mk.injEq] at h
    obtain ⟨h1, h2⟩ := h
    subst h1
    exact ⟨rfl, h2.symm⟩

/-- Unfolding a successful hybrid layout into its clusters and paths. -/
theorem drawHybridTopology_some {cosf sinf sqrtf : ℚ → ℚ} {rand : ℕ → ℚ}
    {fuel : ℕ} {width height r : ℚ} {hns : List Point} {hps : List (List Point)}
    (h : drawHybridTopology cosf sinf sqrtf rand fuel width height r = some (hns, hps)) :
    ∃ ms, hybridMeshDevices sqrtf rand fuel width height r = some ms ∧
      hns = hybridStarHub width height :: (hybridStarDevices cosf sinf width height ++ ms) ∧
      hps = ((hybridStarDevices cosf sinf width height).flatMap fun device =>
               [[hybridStarHub width height, device], [device, hybridStarHub width height]]) ++
            allPairsPaths ms ++
            (if hybridStarDevices cosf sinf width height ≠ [] ∧ ms ≠ [] then
               [[hybridStarHub width height, ms.getD 0 ⟨0, 0⟩],
                [ms.getD 0 ⟨0, 0⟩, hybridStarHub width height]]
             else []) := by
  unfold drawHybridTopology at h
  dsimp only at h
  cases hmd : hybridMeshDevices sqrtf rand fuel width height r with
  | none => rw [hmd] at h; cases h
  | some ms =>
    rw [hmd] at h
    simp only [Option.some.injEq, Prod.mk.injEq] at h
    exact ⟨ms, rfl, h.1.symm, h.2.symm⟩

/-- A bus attachment point lies on the bus line, and dropping it back
down by `r * 2` recovers a drawn bus device. -/
theorem busNodes_mem_proj {width height r : ℚ} {a : Point}
    (ha : a ∈ busNodes width height r) :
    a.y = height / 2 ∧
      (⟨a.x, height / 2 + r * 2⟩ : Point) ∈ busDevices width height r := by
  obtain ⟨d, hd, had⟩ := List.mem_map.mp ha
  subst had
  refine ⟨rfl, ?_⟩
  obtain ⟨i, hi, hdi⟩ := List.mem_map.mp hd
  subst hdi
  exact List.mem_map.mpr ⟨i, hi, rfl⟩

/-- Successful mesh placement yields devices pairwise separated by at
least `r * 4` (as measured by `sqrtf` on the squared distance). -/
theorem meshDevices_pairwise {sqrtf : ℚ → ℚ} {rand : ℕ → ℚ} {fuel : ℕ}
    {width height r : ℚ} {ds : List Point}
    (h : meshDevices sqrtf rand fuel width height r = some ds) :
    ds.Pairwise (fun a b => r * 4 ≤ sqrtf ((b.x - a.x) ^ 2 + (b.y - a.y) ^ 2)) := by
  unfold meshDevices at h
  dsimp only at h
  cases hpl : placeAll sqrtf (fun u => r * 2 + u * (width - 2 * (r * 2)))
      (fun u => r * 2 + u * (height - 2 * (r * 2))) r rand fuel 5 [] 0 with
  | none => rw [hpl] at h; cases h
  | some pr =>
    obtain ⟨devices, k⟩ := pr
    rw [hpl] at h
    cases h
    exact placeAll_some_pairwise hpl List.Pairwise.nil

/-- Successful hybrid mesh placement yields devices pairwise separated
by at least `r * 4`. -/
theorem hybridMeshDevices_pairwise {sqrtf : ℚ → ℚ} {rand : ℕ → ℚ} {fuel : ℕ}
    {width height r : ℚ} {ds : List Point}
    (h : hybridMeshDevices sqrtf rand fuel width height r = some ds) :
    ds.Pairwise (fun a b => r * 4 ≤ sqrtf ((b.x - a.x) ^ 2 + (b.y - a.y) ^ 2)) := by
  unfold hybridMeshDevices at h
  cases hpl : placeAll sqrtf (fun u => width * (6 / 10) + u * (width * (3 / 10)))
      (fun u => height * (1 / 10) + u * (height * (8 / 10))) r rand fuel 3 [] 0 with
  | none => rw [hpl] at h; cases h
  | some pr =>
    obtain ⟨devices, k⟩ := pr
    rw [hpl] at h
    cases h
    exact placeAll_some_pairwise hpl List.Pairwise.nil

/-- Pairwise separation of a list, read off at any two distinct
positions, in terms of `sqDist`. -/
theorem pairwise_get_min_sep {sqrtf : ℚ → ℚ} {r : ℚ} {l : List Point}
    (h : l.Pairwise (fun a b => r * 4 ≤ sqrtf ((b.x - a.x) ^ 2 + (b.y - a.y) ^ 2))) :
    ∀ i j : Fin l.length, i ≠ j → 4 * r ≤ sqrtf (sqDist (l.get i) (l.get j)) := by
  intro i j hij
  have hpg := List.pairwise_iff_get.mp h
  rcases lt_trichotomy i j with hlt | heq | hgt
  · have hs := hpg i j hlt
    rw [mul_comm, sqDist_comm]
    exact hs
  · exact absurd heq hij
  · have hs := hpg j i hgt
    rw [mul_comm]
    exact hs

/-- C2 (amended): for the star, mesh, tree and hybrid layouts every path
is a two-point path whose endpoints are drawn nodes of the same call;
for the bus layout the endpoints are instead the bus attachment points
on the line `y = height / 2`, each the vertical projection of a drawn
node sitting `r * 2` below — the attachment points themselves are not
drawn nodes. -/
theorem layout_path_endpoints (cosf sinf sqrtf : ℚ → ℚ) (rand : ℕ → ℚ)
    (fuel : ℕ) (width height r : ℚ)
    (mns : List Point) (mps : List (List Point))
    (hmesh : drawMeshTopology sqrtf rand fuel width height r = some (mns, mps))
    (hns : List Point) (hps : List (List Point))
    (hhyb : drawHybridTopology cosf sinf sqrtf rand fuel width height r = some (hns, hps)) :
    (∀ p ∈ (drawStarTopology cosf sinf width height).2, p.length = 2 ∧
      p.getD 0 ⟨0, 0⟩ ∈ (drawStarTopology cosf sinf width height).1 ∧
      p.getD 1 ⟨0, 0⟩ ∈ (drawStarTopology cosf sinf width height).1) ∧
    (∀ p ∈ mps, p.length = 2 ∧ p.getD 0 ⟨0, 0⟩ ∈ mns ∧ p.getD 1 ⟨0, 0⟩ ∈ mns) ∧
    (∀ p ∈ (drawTreeTopology width height).2, p.length = 2 ∧
      p.getD 0 ⟨0, 0⟩ ∈ (drawTreeTopology width height).1 ∧
      p.getD 1 ⟨0, 0⟩ ∈ (drawTreeTopology width height).1) ∧
    (∀ p ∈ hps, p.length = 2 ∧ p.getD 0 ⟨0, 0⟩ ∈ hns ∧ p.getD 1 ⟨0, 0⟩ ∈ hns) ∧
    (∀ p ∈ (drawBusTopology width height r).2, p.length = 2 ∧
      (p.getD 0 ⟨0, 0⟩).y = height / 2 ∧ (p.getD 1 ⟨0, 0⟩).y = height / 2 ∧
      (⟨(p.getD 0 ⟨0, 0⟩).x, height / 2 + r * 2⟩ : Point) ∈ (drawBusTopology width height r).1 ∧
      (⟨(p.getD 1 ⟨0, 0⟩).x, height / 2 + r * 2⟩ : Point) ∈ (drawBusTopology width height r).1) := by
  refine ⟨?_, ?_, ?_, ?_, ?_⟩
  · intro p hp
    exact spokePaths_endpoints (starHub width height)
      (starDevices cosf sinf width height) p hp
  · obtain ⟨hmd, hpaths⟩ := drawMeshTopology_some hmesh
    subst hpaths
    exact fun p hp => allPairsPaths_endpoints mns p hp
  · intro p hp
    simp only [drawTreeTopology] at hp
    fin_cases hp <;>
      exact ⟨rfl, by simp [drawTreeTopology], by simp [drawTreeTopology]⟩
  · obtain ⟨ms, hmd, hn, hpth⟩ := drawHybridTopology_some hhyb
    subst hn
    subst hpth
    intro p hp
    rcases List.mem_append.mp hp with hp1 | hbr
    · rcases List.mem_append.mp hp1 with hstar | hmesh2
      · obtain ⟨h2, ha, hb⟩ := spokePaths_endpoints _ _ p hstar
        exact ⟨h2, mem_cons_append_left ha, mem_cons_append_left hb⟩
      · obtain ⟨h2, ha, hb⟩ := allPairsPaths_endpoints ms p hmesh2
        exact ⟨h2, List.mem_cons_of_mem _ (List.mem_append_right _ ha),
               List.mem_cons_of_mem _ (List.mem_append_right _ hb)⟩
    · by_cases hc : hybridStarDevices cosf sinf width height ≠ [] ∧ ms ≠ []
      · rw [if_pos hc] at hbr
        have hm0 : ms.getD 0 ⟨0, 0⟩ ∈ ms := getD_zero_mem hc.2
        simp only [List.mem_cons, List.not_mem_nil, or_false] at hbr
        rcases hbr with h | h
        · subst h
          exact ⟨rfl, List.mem_cons_self _ _,
            List.mem_cons_of_mem _ (List.mem_append_right _ hm0)⟩
        · subst h
          exact ⟨rfl, List.mem_cons_of_mem _ (List.mem_append_right _ hm0),
            List.mem_cons_self _ _⟩
      · rw [if_neg hc] at hbr
        cases hbr
  · intro p hp
    obtain ⟨h2, ha, hb⟩ := adjacentPaths_endpoints (busNodes width height r) p hp
    obtain ⟨hya, hma⟩ := busNodes_mem_proj ha
    obtain ⟨hyb, hmb⟩ := busNodes_mem_proj hb
    exact ⟨h2, hya, hyb, hma, hmb⟩

/-- Counterexample to C2 as stated: on a 400×300 canvas with
`nodeRadius = 15`, the first bus path starts at the attachment point
`(40, 150)`, which is not among the drawn bus nodes (they all sit at
`y = 180`). -/
theorem bus_path_endpoint_not_a_node :
    [(⟨40, 150⟩ : Point), ⟨120, 150⟩] ∈ (drawBusTopology 400 300 15).2 ∧
      (⟨40, 150⟩ : Point) ∉ (drawBusTopology 400 300 15).1 := by
  constructor
  · norm_num [drawBusTopology, busDevices, busNodes, adjacentPaths, List.range_succ]
  · norm_num [drawBusTopology, busDevices, busNodes, Point.mk.injEq, List.range_succ]

/-- Witness for C2 (amended) at a degenerate all-zero instantiation:
the first mesh path of the layout has both endpoints in the placed
device list. -/
theorem layout_path_endpoints_witness :
    ([(⟨0, 0⟩ : Point), ⟨0, 0⟩] : List Point).length = 2 ∧
    ([(⟨0, 0⟩ : Point), ⟨0, 0⟩] : List Point).getD 0 ⟨0, 0⟩ ∈
      ([⟨0, 0⟩, ⟨0, 0⟩, ⟨0, 0⟩, ⟨0, 0⟩, ⟨0, 0⟩] : List Point) ∧
    ([(⟨0, 0⟩ : Point), ⟨0, 0⟩] : List Point).getD 1 ⟨0, 0⟩ ∈
      ([⟨0, 0⟩, ⟨0, 0⟩, ⟨0, 0⟩, ⟨0, 0⟩, ⟨0, 0⟩] : List Point) :=
  (layout_path_endpoints (fun _ => 0) (fun _ => 0) (fun q => q) (fun _ => 0) 1 0 0 0
      [⟨0, 0⟩, ⟨0, 0⟩, ⟨0, 0⟩, ⟨0, 0⟩, ⟨0, 0⟩]
      (allPairsPaths [⟨0, 0⟩, ⟨0, 0⟩, ⟨0, 0⟩, ⟨0, 0⟩, ⟨0, 0⟩])
      (by norm_num [drawMeshTopology, meshDevices, placeAll, placeOne])
      (hybridStarHub 0 0 :: (hybridStarDevices (fun _ => 0) (fun _ => 0) 0 0 ++
        [⟨0, 0⟩, ⟨0, 0⟩, ⟨0, 0⟩]))
      (((hybridStarDevices (fun _ => 0) (fun _ => 0) 0 0).flatMap fun device =>
          [[hybridStarHub 0 0, device], [device, hybridStarHub 0 0]]) ++
        allPairsPaths [⟨0, 0⟩, ⟨0, 0⟩, ⟨0, 0⟩] ++
        [[hybridStarHub 0 0, ⟨0, 0⟩], [⟨0, 0⟩, hybridStarHub 0 0]])
      (by
        norm_num [drawHybridTopology, hybridMeshDevices, hybridStarHub,
          hybridStarDevices, placeAll, placeOne, allPairsPaths, List.range_succ]
        exact fun h => absurd h (List.cons_ne_nil _ _))).2.1
    [⟨0, 0⟩, ⟨0, 0⟩] (by simp [allPairsPaths])

/-- C3: whenever the rejection-sampling placement loops terminate, every
pair of distinct devices within the mesh layout's randomized cluster,
and within the hybrid layout's randomized mesh cluster, is at Euclidean
distance (as measured by `sqrtf` on the squared distance) at least
`4 * nodeRadius`, regardless of the random values drawn or the number of
retries. -/
theorem mesh_placement_min_separation (sqrtf : ℚ → ℚ) (rand : ℕ → ℚ)
    (fuel : ℕ) (width height r : ℚ)
    (mns : List Point) (mps : List (List Point))
    (hmesh : drawMeshTopology sqrtf rand fuel width height r = some (mns, mps))
    (hds : List Point)
    (hhyb : hybridMeshDevices sqrtf rand fuel width height r = some hds) :
    (∀ i j : Fin mns.length, i ≠ j →
      4 * r ≤ sqrtf (sqDist (mns.get i) (mns.get j))) ∧
    (∀ i j : Fin hds.length, i ≠ j →
      4 * r ≤ sqrtf (sqDist (hds.get i) (hds.get j))) :=
  ⟨pairwise_get_min_sep (meshDevices_pairwise (drawMeshTopology_some hmesh).1),
   pairwise_get_min_sep (hybridMeshDevices_pairwise hhyb)⟩

/-- Witness for C3 at the degenerate all-zero instantiation with
`r = 0`: the first two placed devices are (weakly) separated. -/
theorem mesh_placement_min_separation_witness :
    4 * (0 : ℚ) ≤ sqDist (⟨0, 0⟩ : Point) (⟨0, 0⟩ : Point) :=
  (mesh_placement_min_separation (fun q => q) (fun _ => 0) 1 0 0 0
      [⟨0, 0⟩, ⟨0, 0⟩, ⟨0, 0⟩, ⟨0, 0⟩, ⟨0, 0⟩]
      (allPairsPaths [⟨0, 0⟩, ⟨0, 0⟩, ⟨0, 0⟩, ⟨0, 0⟩, ⟨0, 0⟩])
      (by norm_num [drawMeshTopology, meshDevices, placeAll, placeOne])
      [⟨0, 0⟩, ⟨0, 0⟩, ⟨0, 0⟩]
      (by norm_num [hybridMeshDevices, placeAll, placeOne])).1
    ⟨0, by norm_num⟩ ⟨1, by norm_num⟩ (by norm_num [Fin.ext_iff])

/-- The spawn phase starting from an empty array yields at most one
packet. -/
theorem spawnPhase_nil_length (t : ℚ) (paths : List (List Point)) (idx : ℕ)
    (lastSpawnTime : ℚ) :
    (spawnPhase t paths idx [] lastSpawnTime).1.length ≤ 1 := by
  unfold spawnPhase
  split_ifs with hc
  · cases createPacket (paths.getD idx []) <;> simp
  · simp

/-- Every packet the spawn phase adds to an empty array travels the
frame's randomly chosen path. -/
theorem spawnPhase_nil_path (t : ℚ) (paths : List (List Point)) (idx : ℕ)
    (lastSpawnTime : ℚ) :
    ∀ pk ∈ (spawnPhase t paths idx [] lastSpawnTime).1,
      pk.path = paths.getD idx [] := by
  intro pk hpk
  unfold spawnPhase at hpk
  split_ifs at hpk with hc
  · cases hcp : createPacket (paths.getD idx []) with
    | none => rw [hcp] at hpk; cases hpk
    | some newPacket =>
      rw [hcp] at hpk
      simp only [List.nil_append, List.mem_singleton] at hpk
      subst hpk
      unfold createPacket at hcp
      split_ifs at hcp
      cases hcp
      rfl
  · cases hpk

/-- A frame's spawn contribution, starting from an empty fresh array
with stamp value `0`: exactly one packet when the clock has passed
`packetInterval`, the path set is non-empty and the chosen path has at
least 2 points; none otherwise. -/
theorem spawnPhase_nil_zero_length (t : ℚ) (paths : List (List Point)) (idx : ℕ) :
    (spawnPhase t paths idx [] 0).1.length =
      if packetInterval < t ∧ paths ≠ [] ∧ 2 ≤ (paths.getD idx []).length then 1
      else 0 := by
  unfold spawnPhase
  rw [sub_zero]
  by_cases h1 : packetInterval < t ∧ paths ≠ []
  · rw [if_pos h1]
    by_cases h2 : 2 ≤ (paths.getD idx []).length
    · have hc : createPacket (paths.getD idx []) =
          some { x := ((paths.getD idx []).getD 0 ⟨0, 0⟩).x
                 y := ((paths.getD idx []).getD 0 ⟨0, 0⟩).y
                 path := paths.getD idx []
                 currentSegment := 0
                 distanceTraveled := 0 } := by
        unfold createPacket
        rw [if_neg (by omega)]
      rw [hc, if_pos ⟨h1.1, h1.2, h2⟩]
      rfl
    · have hc : createPacket (paths.getD idx []) = none := by
        unfold createPacket
        rw [if_pos (by omega)]
      rw [hc, if_neg fun h => h2 h.2.2]
      rfl
  · rw [if_neg h1, if_neg fun h => h1 ⟨h.1, h.2.1⟩]
    rfl

/-- C6 (amended): in a run started by a resize (fresh packet array, so
the stamp reads `0`), a packet spawns on every frame whose clock value
exceeds `packetInterval` and whose (non-empty) path set yields a valid
chosen path: the source stores the last-spawn stamp on the packets
array, and `updatePackets` replaces that array every frame, so the
interval throttle never carries over and the spawn count equals the
number of such frames — it is unrelated to `⌊D / I⌋` in either
direction. -/
theorem spawn_once_per_frame_after_interval
    (frames : List (ℚ × List (List Point) × ℕ)) :
    spawnEvents frames 0 =
      frames.countP (fun f =>
        decide (packetInterval < f.1 ∧ f.2.1 ≠ [] ∧
          2 ≤ (f.2.1.getD f.2.2 []).length)) := by
  induction frames with
  | nil => rfl
  | cons f rest ih =>
    obtain ⟨t, paths, idx⟩ := f
    show (spawnPhase t paths idx [] 0).1.length + spawnEvents rest 0 = _
    rw [List.countP_cons, spawnPhase_nil_zero_length, ih]
    simp only [decide_eq_true_eq]
    exact Nat.add_comm _ _

/-- Counterexample to C6 as stated: with frames at 1100 ms, 1200 ms and
1300 ms (all with a non-empty valid path set, duration `D = 1300`),
every frame spawns — the stamp written at 1100 is lost with the array
replacement before 1200 — so 3 packets spawn while `⌊D / I⌋ = 1`,
outside the claimed band `⌊D / I⌋ ± 1`. -/
theorem spawn_events_not_floor_pm_one :
    spawnEvents [(1100, [[(⟨0, 0⟩ : Point), ⟨160, 0⟩]], 0),
        (1200, [[(⟨0, 0⟩ : Point), ⟨160, 0⟩]], 0),
        (1300, [[(⟨0, 0⟩ : Point), ⟨160, 0⟩]], 0)] 0 = 3 ∧
      ⌊(1300 : ℚ) / packetInterval⌋ = 1 ∧
      ¬((1 : ℤ) - 1 ≤ 3 ∧ (3 : ℤ) ≤ 1 + 1) := by
  refine ⟨?_, by norm_num [packetInterval], by norm_num⟩
  norm_num [spawnEvents, spawnPhase, createPacket, packetInterval]

/-- C7 (amended): the resize handler discards the prior animation state
entirely (its result does not depend on the previous packets, spawn
stamp or frame time), and after it returns the packet collection holds
at most one packet — the one possibly spawned by the synchronously
restarted first frame, travelling that frame's chosen path — rather
than always being empty. -/
theorem resize_discards_prior_packets (sqrtf : ℚ → ℚ)
    (paths : List (List Point)) (idx : ℕ) (now : ℚ) (st st' : AnimState) :
    resizeCanvas sqrtf paths idx now st = resizeCanvas sqrtf paths idx now st' ∧
    (resizeCanvas sqrtf paths idx now st).packets.length ≤ 1 ∧
    ∀ q ∈ (resizeCanvas sqrtf paths idx now st).packets,
      q.path = paths.getD idx [] := by
  refine ⟨rfl, ?_, ?_⟩
  · calc (resizeCanvas sqrtf paths idx now st).packets.length
        ≤ (spawnPhase now paths idx [] 0).1.length :=
          List.length_filterMap_le _ _
      _ ≤ 1 := spawnPhase_nil_length now paths idx 0
  · intro q hq
    obtain ⟨a, ha, hupd⟩ := List.mem_filterMap.mp hq
    have hpath := spawnPhase_nil_path now paths idx 0 a ha
    exact (updatePacketOne_some hupd).1.trans hpath

/-- Witness for C7 (amended): after a resize at `t = 2000` with one
valid path, the surviving packet travels that path. -/
theorem resize_discards_prior_packets_witness :
    Packet.path ⟨0, 0, [⟨0, 0⟩, ⟨160, 0⟩], 0, 0⟩ =
      ([[(⟨0, 0⟩ : Point), ⟨160, 0⟩]] : List (List Point)).getD 0 [] :=
  (resize_discards_prior_packets (fun q => q) [[⟨0, 0⟩, ⟨160, 0⟩]] 0 2000
      ⟨[], 0, 0⟩ ⟨[], 0, 0⟩).2.2 _
    (by norm_num [resizeCanvas, animate, spawnPhase, createPacket, packetInterval,
      updatePackets, updatePacketOne, newDistance, packetSpeed, segmentLength,
      segStart, segEnd])

/-- Counterexample to C7 as stated: starting from two in-flight packets,
a resize at clock value 2000 with a non-empty path set leaves the packet
collection non-empty — the restarted first frame spawns a packet
synchronously before the handler returns. -/
theorem resize_packets_not_always_empty :
    (resizeCanvas (fun q => q) [[(⟨0, 0⟩ : Point), ⟨160, 0⟩]] 0 2000
        ⟨[⟨1, 2, [], 0, 0⟩, ⟨3, 4, [(⟨0, 0⟩ : Point), ⟨1, 1⟩], 1, 0⟩], 5, 7⟩).packets ≠
      [] := by
  norm_num [resizeCanvas, animate, spawnPhase, createPacket, packetInterval,
    updatePackets, updatePacketOne, newDistance, packetSpeed, segmentLength,
    segStart, segEnd]
  exact Option.some_ne_none _

/-- C8: a spawn attempt on a path with fewer than 2 points returns
`null`, adds no packet, raises no error, and leaves both the packet
collection and the last-spawn timestamp untouched. -/
theorem spawn_short_path_noop (path : List Point) (hshort : path.length < 2)
    (t : ℚ) (paths : List (List Point)) (idx : ℕ)
    (packets : List Packet) (lastSpawnTime : ℚ)
    (hsel : paths.getD idx [] = path) :
    createPacket path = none ∧
      spawnPhase t paths idx packets lastSpawnTime = (packets, lastSpawnTime) := by
  have hnone : createPacket path = none := by
    unfold createPacket
    rw [if_pos hshort]
  refine ⟨hnone, ?_⟩
  unfold spawnPhase
  rw [hsel, hnone]
  split_ifs <;> rfl

/-- Witness for C8: a one-point path at concrete frame data. -/
theorem spawn_short_path_noop_witness :
    createPacket [(⟨0, 0⟩ : Point)] = none ∧
      spawnPhase 5000 [[(⟨0, 0⟩ : Point)]] 0 [] 0 = ([], 0) :=
  spawn_short_path_noop [⟨0, 0⟩] (by norm_num) 5000 [[⟨0, 0⟩]] 0 [] 0 rfl
